import Mathlib

/-!
Verification of the CNAB-80 parsing/validation pipeline of the
literate-sniffle repository.

The repository contains two parallel implementations of the pipeline:
a TypeScript backend (`src/backend/src/index.ts` and the `cnabParser`
module appearing in `src/unnamed/part_010`) and a C# backend
(`src/backend/src/LiterateSniffle.Core/Services/FileUploadService.cs`,
class `CNABParserService`).

This file gives a shallow embedding of both implementations and proves
(or refutes) the frozen claims about them.  A *line* is modelled as a
`List Char`; a *file* is the list of its raw lines, i.e. the result of
splitting the file content on the newline character `\n` (exactly what
both implementations do first: `content.split('\n')` in TypeScript and
`content.Split('\n')` in C#).  Everything downstream of that split is
modelled definition-by-definition from the source.
-/

/-- A single raw line of a CNAB file (the content between two `\n`). -/
abbrev Line := List Char

/-- A CNAB file, as the list of its `\n`-separated raw lines. -/
abbrev CNABFile := List Line

/-- Whitespace test used by JavaScript `trim()` / C# `char.IsWhiteSpace`
restricted to the ASCII characters that can occur in CNAB files. -/
def isWs (c : Char) : Bool :=
  c = ' ' || c = '\t' || c = '\r' || c = '\n'

/-- Model of the TypeScript `l.replace` of the regular expression
matching trailing CR/LF, and of the C# `TrimEnd` on CR/LF: remove
every trailing CR/LF character. -/
def stripCRLF (l : Line) : Line :=
  (l.reverse.dropWhile (fun c => c = '\r' || c = '\n')).reverse

/-- JavaScript `trim()` / C# `Trim()`: strip leading and trailing whitespace. -/
def trimWs (l : Line) : Line :=
  ((l.dropWhile isWs).reverse.dropWhile isWs).reverse

/-- JavaScript `s.substring(a, b)` on a string viewed as a char list. -/
def sub (l : Line) (a b : Nat) : Line :=
  (l.drop a).take (b - a)

/-- C# `s.Substring(a, len)` on a string viewed as a char list (clamped
rather than throwing; every use in the sources is in range). -/
def subLen (l : Line) (a len : Nat) : Line :=
  (l.drop a).take len

/-- Numeric value of a digit string (most significant digit first). -/
def digitsToNat (l : Line) : Nat :=
  l.foldl (fun n c => 10 * n + (c.toNat - '0'.toNat)) 0

/-- JavaScript `parseInt` as used in the sources: skip leading
whitespace, read the maximal run of decimal digits; `none` models `NaN`
(no digits found).  The sources never apply it to signed input. -/
def jsParseInt (l : Line) : Option Nat :=
  let digits := (l.dropWhile isWs).takeWhile Char.isDigit
  if digits.isEmpty then none else some (digitsToNat digits)

/-- C# `int.TryParse` as used in the sources (on substrings that contain
no sign): succeeds exactly on nonempty all-digit strings. -/
def csTryParse (l : Line) : Option Nat :=
  if l ≠ [] && l.all Char.isDigit then some (digitsToNat l) else none

/-- Test that `l` is a nonempty string of exactly `k` decimal digits (the meaning
of the regular expressions of shape `^\d{k}$` in both backends). -/
def isDigits (l : Line) (k : Nat) : Bool :=
  l.length = k && l.all Char.isDigit

/-- First-occurrence deduplication: the behaviour of
`[...new Set(xs)]` (TypeScript) and `xs.Distinct()` (C#). -/
def dedupFirst (xs : List Nat) : List Nat :=
  xs.foldl (fun acc x => if x ∈ acc then acc else acc ++ [x]) []

/-- The 0-based index of the first element failing `ok` (the `for` loop
of both structural validators returns the error for the first
offending line). -/
def firstFailIdx (ok : Line → Bool) : List Line → Option Nat
  | [] => none
  | l :: rest => if ¬ ok l then some 0 else (firstFailIdx ok rest).map (· + 1)

/-- Returns `true` exactly on `Except.error`. -/
def isErr {ε α : Type} : Except ε α → Bool
  | .error _ => true
  | .ok _ => false

/-- Decidable equality for `Except`, for evaluating the embedding on
concrete inputs. -/
instance {ε α : Type} [DecidableEq ε] [DecidableEq α] : DecidableEq (Except ε α)
  | .error a, .error b =>
    if h : a = b then .isTrue (by rw [h]) else .isFalse (by simp [h])
  | .error _, .ok _ => .isFalse (by simp)
  | .ok _, .error _ => .isFalse (by simp)
  | .ok a, .ok b =>
    if h : a = b then .isTrue (by rw [h]) else .isFalse (by simp [h])

/- ## The TypeScript transaction-type catalog (`cnabParser` module) -/

/-- The record returned by `getTransactionTypeInfo`. -/
structure TypeInfo where
  name : String
  description : String
  nature : String
  sign : String
deriving DecidableEq, Repr

/-- The fallback record `getTransactionTypeInfo` returns for a code that
is absent from its `typeMap`. -/
def unknownTypeInfo : TypeInfo :=
  ⟨"Unknown", "Unknown transaction type", "Unknown", "?"⟩

/-- Model of `getTransactionTypeInfo` (src/unnamed/part_010, lines 6-20): the
nine-entry catalog with an `Unknown` fallback for any other code. -/
def getTransactionTypeInfo (c : Int) : TypeInfo :=
  if c = 1 then ⟨"Debit", "Debit transaction", "Income", "+"⟩
  else if c = 2 then ⟨"Boleto", "Boleto payment", "Expense", "-"⟩
  else if c = 3 then ⟨"Financing", "Financing payment", "Expense", "-"⟩
  else if c = 4 then ⟨"Credit", "Credit transaction", "Income", "+"⟩
  else if c = 5 then ⟨"Loan Receipt", "Loan receipt", "Income", "+"⟩
  else if c = 6 then ⟨"Sales", "Sales transaction", "Income", "+"⟩
  else if c = 7 then ⟨"TED Receipt", "TED receipt", "Income", "+"⟩
  else if c = 8 then ⟨"DOC Receipt", "DOC receipt", "Income", "+"⟩
  else if c = 9 then ⟨"Rent", "Rent payment", "Expense", "-"⟩
  else unknownTypeInfo

/-- Model of `mapTypeCodeToName` (src/unnamed/part_010, lines 351-364): switch on
the code, `throw new Error` (modelled as `.error`) on the default case. -/
def mapTypeCodeToName (c : Int) : Except String String :=
  if c = 1 then .ok "Debit"
  else if c = 2 then .ok "Boleto"
  else if c = 3 then .ok "Financing"
  else if c = 4 then .ok "Credit"
  else if c = 5 then .ok "Loan Receipt"
  else if c = 6 then .ok "Sales"
  else if c = 7 then .ok "TED Receipt"
  else if c = 8 then .ok "DOC Receipt"
  else if c = 9 then .ok "Rent"
  else .error "Invalid type code"

/-- Model of `CNABParserService.GetTransactionTypeName` (FileUploadService.cs,
lines 165-172): dictionary lookup, `CNABParseException` on a miss. -/
def csGetTransactionTypeName (c : Int) : Except String String :=
  if c = 1 then .ok "Debit"
  else if c = 2 then .ok "Boleto"
  else if c = 3 then .ok "Financing"
  else if c = 4 then .ok "Credit"
  else if c = 5 then .ok "Loan Receipt"
  else if c = 6 then .ok "Sales"
  else if c = 7 then .ok "TED Receipt"
  else if c = 8 then .ok "DOC Receipt"
  else if c = 9 then .ok "Rent"
  else .error "Invalid transaction type code"

/-- Model of `CNABParserService.GetTransactionTypeId` (FileUploadService.cs,
lines 145-160): maps code `d` in 1..9 to the GUID whose digits are all
`d` (modelled by the digit itself), `CNABParseException` otherwise. -/
def csGetTransactionTypeId (c : Int) : Except String Nat :=
  if 1 ≤ c ∧ c ≤ 9 then .ok c.toNat
  else .error "Invalid transaction type code"

/- ## The TypeScript parser `parseCNABContent`
(src/unnamed/part_010, lines 66-115) -/

/-- The transaction record pushed by the TypeScript `parseCNABContent`.
JavaScript `parseInt` results are `Option Nat` (`none` = `NaN`); the
record stores the components handed to `new Date(year, month, day)` and
the integer cents handed to the float division `parseInt(valueStr)/100`
(see `tsParsedValue`).  `month0` is the 0-based JavaScript month, i.e.
`parseInt(dateStr.substring(2, 4)) - 1`. -/
structure TSTransaction where
  typeCode : Option Nat
  day : Option Nat
  month0 : Option Int
  year : Option Nat
  valueCents : Option Nat
  cpf : Line
  card : Line
  time : Line
  storeOwner : Line
  storeName : Line
deriving DecidableEq, Repr

/-- The field extraction of the TypeScript `parseCNABContent` loop body
(src/unnamed/part_010, lines 84-111), performed on a line that passed
the length and type checks.  No per-field validation is performed. -/
def tsDecodeLine (l : Line) : TSTransaction :=
  let dateStr := sub l 1 9
  { typeCode := jsParseInt (sub l 0 1)
    day := jsParseInt (sub dateStr 0 2)
    month0 := (jsParseInt (sub dateStr 2 4)).map (fun m => (m : Int) - 1)
    year := jsParseInt (sub dateStr 4 8)
    valueCents := jsParseInt (sub l 9 19)
    cpf := sub l 19 30
    card := sub l 30 42
    time := sub l 42 48
    storeOwner := trimWs (sub l 48 62)
    storeName := trimWs (sub l 62 80) }

/-- Errors thrown by the TypeScript `parseCNABContent`. The payloads are
the data interpolated into the thrown `Error` messages. -/
inductive TSParseError where
  | invalidRecordLength (len : Nat)
  | invalidRecordType (t : Option Nat)
deriving DecidableEq, Repr

/-- Model of the membership test on the list of valid type codes of
the TypeScript parser, 1 2 3 4 5 8 9 — note that `6` and `7` are
*not* in that list, and `NaN` (`none`) never is. -/
def tsValidType (t : Option Nat) : Bool :=
  t = some 1 || t = some 2 || t = some 3 || t = some 4 || t = some 5
    || t = some 8 || t = some 9

/-- The `for (const line of lines)` loop of the TypeScript
`parseCNABContent`: length check, type check, skip type 9, decode. -/
def tsParseLines : List Line → Except TSParseError (List TSTransaction)
  | [] => .ok []
  | l :: rest =>
    if l.length ≠ 80 then .error (.invalidRecordLength l.length)
    else if ¬ tsValidType (jsParseInt (sub l 0 1)) then
      .error (.invalidRecordType (jsParseInt (sub l 0 1)))
    else if jsParseInt (sub l 0 1) = some 9 then tsParseLines rest
    else (tsDecodeLine l :: ·) <$> tsParseLines rest

/-- Model of `parseCNABContent` (src/unnamed/part_010, lines 66-115):
`content.split('\n').filter(line => line.trim().length > 0)` followed by
the parsing loop.  Note: this variant does *not* strip trailing `\r`. -/
def tsParseCNABContent (file : CNABFile) : Except TSParseError (List TSTransaction) :=
  tsParseLines (file.filter (fun l => (trimWs l).length > 0))

/- ## The TypeScript structural validator `validateCNABFile`
(src/backend/src/index.ts, lines 45-99) -/

/-- Errors returned by `validateCNABFile` (as `{isValid:false, error}`),
one constructor per distinct message, carrying the interpolated data. -/
inductive TSVError where
  | fileEmpty
  | inconsistentLengths (lengths : List Nat)
  | invalidRecordLength (len : Nat)
  | invalidHeader
  | invalidTypeAt (lineNo : Nat)
deriving DecidableEq, Repr

/-- The `validTypeCodes` array of `validateCNABFile` (index.ts line 72):
`['0', '1', '2', '3', '4', '5', '8', '9']` — it contains `'0'` and it
does *not* contain `'6'` or `'7'`. -/
def tsValidLeading (c : Char) : Bool :=
  c = '0' || c = '1' || c = '2' || c = '3' || c = '4' || c = '5'
    || c = '8' || c = '9'

/-- Model of the per-record test
`record && record[0] && validTypeCodes.includes(record[0])`. -/
def tsLineTypeOk (l : Line) : Bool :=
  match l.head? with
  | some c => tsValidLeading c
  | none => false

/-- Model of `validateCNABFile` (index.ts lines 45-99): strip trailing CR/LF,
drop empty lines, check nonempty, uniform length, length 80, a valid
first (header) record, and a valid type code on every line; the missing
trailer is only logged.  Returns the format tag `"CNAB 80"`. -/
def tsValidateCNABFile (file : CNABFile) : Except TSVError String :=
  let lines := (file.map stripCRLF).filter (fun l => l.length > 0)
  if lines.isEmpty then .error .fileEmpty
  else
    let uniqueLengths := dedupFirst (lines.map List.length)
    if uniqueLengths.length ≠ 1 then .error (.inconsistentLengths uniqueLengths)
    else if uniqueLengths.headD 0 ≠ 80 then
      .error (.invalidRecordLength (uniqueLengths.headD 0))
    else if ¬ tsLineTypeOk (lines.headD []) then .error .invalidHeader
    else
      match firstFailIdx tsLineTypeOk lines with
      | some i => .error (.invalidTypeAt (i + 1))
      | none => .ok "CNAB 80"

/- ## The TypeScript record validator `validateCNABDetailRecord`
(src/backend/src/index.ts, lines 102-172) -/

/-- Errors returned by the TypeScript `validateCNABDetailRecord`, one
constructor per distinct message (`Line N: ...`), carrying the line
number and the raw value interpolated into the message. -/
inductive TSDetailError where
  | invalidLength (lineNo len : Nat)
  | invalidType (lineNo : Nat) (raw : Line)
  | invalidDateFormat (lineNo : Nat) (raw : Line)
  | invalidDate (lineNo : Nat) (raw : Line)
  | invalidValue (lineNo : Nat) (raw : Line)
  | invalidCpf (lineNo : Nat) (raw : Line)
  | invalidCard (lineNo : Nat) (raw : Line)
  | invalidTimeFormat (lineNo : Nat) (raw : Line)
  | invalidTime (lineNo : Nat) (raw : Line)
  | emptyStoreOwner (lineNo : Nat)
  | emptyStoreName (lineNo : Nat)
deriving DecidableEq, Repr

/-- JavaScript comparison `v < lo || v > hi` where `v` is a `parseInt`
result: with `v = NaN` (`none`) both comparisons are false. -/
def jsOutOfRange (v : Option Nat) (lo hi : Nat) : Bool :=
  match v with
  | some n => n < lo || hi < n
  | none => false

/-- The failure kinds of the TypeScript `validateCNABDetailRecord`,
without the line number (every message of the source uniformly starts
with `Line {lineNumber}:`, so the number is attached by
`TSDetailKind.withLine` afterwards). -/
inductive TSDetailKind where
  | invalidLength (len : Nat)
  | invalidType (raw : Line)
  | invalidDateFormat (raw : Line)
  | invalidDate (raw : Line)
  | invalidValue (raw : Line)
  | invalidCpf (raw : Line)
  | invalidCard (raw : Line)
  | invalidTimeFormat (raw : Line)
  | invalidTime (raw : Line)
  | emptyStoreOwner
  | emptyStoreName
deriving DecidableEq, Repr

/-- Attach the `Line {lineNumber}:` prefix of the TypeScript messages. -/
def TSDetailKind.withLine (n : Nat) : TSDetailKind → TSDetailError
  | .invalidLength len => .invalidLength n len
  | .invalidType raw => .invalidType n raw
  | .invalidDateFormat raw => .invalidDateFormat n raw
  | .invalidDate raw => .invalidDate n raw
  | .invalidValue raw => .invalidValue n raw
  | .invalidCpf raw => .invalidCpf n raw
  | .invalidCard raw => .invalidCard n raw
  | .invalidTimeFormat raw => .invalidTimeFormat n raw
  | .invalidTime raw => .invalidTime n raw
  | .emptyStoreOwner => .emptyStoreOwner n
  | .emptyStoreName => .emptyStoreName n

/-- The eleven checks of the TypeScript `validateCNABDetailRecord`
(index.ts lines 102-172), in source order, returning the first failure.
Note that the type must be exactly `'1'` and the card must match
`^\d{12}$` (digits only — an asterisk fails), and the store name reads
`substring(62, 81)` (clamped to the 80-char record). -/
def tsDetailFirstFail (record : Line) : Option TSDetailKind :=
  if record.length ≠ 80 then some (.invalidLength record.length)
  else if sub record 0 1 ≠ ['1'] then some (.invalidType (sub record 0 1))
  else if ¬ isDigits (sub record 1 9) 8 then
    some (.invalidDateFormat (sub record 1 9))
  else if jsOutOfRange (jsParseInt (sub (sub record 1 9) 0 2)) 1 31
      || jsOutOfRange (jsParseInt (sub (sub record 1 9) 2 4)) 1 12
      || jsOutOfRange (jsParseInt (sub (sub record 1 9) 4 8)) 1900 2100 then
    some (.invalidDate (sub record 1 9))
  else if ¬ isDigits (sub record 9 19) 10 then
    some (.invalidValue (sub record 9 19))
  else if ¬ isDigits (sub record 19 30) 11 then
    some (.invalidCpf (sub record 19 30))
  else if ¬ isDigits (sub record 30 42) 12 then
    some (.invalidCard (sub record 30 42))
  else if ¬ isDigits (sub record 42 48) 6 then
    some (.invalidTimeFormat (sub record 42 48))
  else if jsOutOfRange (jsParseInt (sub (sub record 42 48) 0 2)) 0 23
      || jsOutOfRange (jsParseInt (sub (sub record 42 48) 2 4)) 0 59
      || jsOutOfRange (jsParseInt (sub (sub record 42 48) 4 6)) 0 59 then
    some (.invalidTime (sub record 42 48))
  else if (trimWs (sub record 48 62)).length = 0 then
    some .emptyStoreOwner
  else if (trimWs (sub record 62 81)).length = 0 then
    some .emptyStoreName
  else none

/-- Model of `validateCNABDetailRecord` (index.ts lines 102-172). -/
def tsValidateCNABDetailRecord (record : Line) (lineNumber : Nat) : Option TSDetailError :=
  (tsDetailFirstFail record).map (TSDetailKind.withLine lineNumber)

/- ## The C# parser `CNABParserService`
(src/backend/src/LiterateSniffle.Core/Services/FileUploadService.cs) -/

/-- C# `string.IsNullOrWhiteSpace` on a char list. -/
def isNullOrWhiteSpace (l : Line) : Bool :=
  l.all isWs

/-- The line preprocessing shared by `ParseContent` and `ValidateFile`
(FileUploadService.cs lines 179-182 and 270-273):
`content.Split('\n').Select(l => l.TrimEnd('\r','\n'))
  .Where(l => !string.IsNullOrWhiteSpace(l))`. -/
def csKeptLines (file : CNABFile) : List Line :=
  (file.map stripCRLF).filter (fun l => ¬ isNullOrWhiteSpace l)

/-- Errors returned by the C# `ValidateCNABDetailRecord` (one
constructor per distinct message). -/
inductive CSDetailError where
  | invalidLength (lineNo len : Nat)
  | invalidType (lineNo : Nat) (c : Char)
  | invalidDateFormat (lineNo : Nat) (raw : Line)
  | invalidDate (lineNo : Nat) (raw : Line)
  | invalidValue (lineNo : Nat) (raw : Line)
  | invalidCpf (lineNo : Nat) (raw : Line)
  | invalidCard (lineNo : Nat) (raw : Line)
  | invalidTimeFormat (lineNo : Nat) (raw : Line)
  | invalidTime (lineNo : Nat) (raw : Line)
  | emptyStoreOwner (lineNo : Nat)
  | emptyStoreName (lineNo : Nat)
deriving DecidableEq, Repr

/-- A digit-or-asterisk character (the C# card regex `^[\d\*]{12}$`). -/
def isDigitOrStar (c : Char) : Bool :=
  c.isDigit || c = '*'

/-- The C# range test `int.TryParse(..) && (v < lo || v > hi)`: when
`TryParse` fails no error is raised. -/
def csOutOfRange (v : Option Nat) (lo hi : Nat) : Bool :=
  match v with
  | some n => n < lo || hi < n
  | none => false

/-- The failure kinds of the C# `ValidateCNABDetailRecord`, without the
line number (every message of the source uniformly starts with
`Line {lineNumber}:`; the number is attached by
`CSDetailKind.withLine`). -/
inductive CSDetailKind where
  | invalidLength (len : Nat)
  | invalidType (c : Char)
  | invalidDateFormat (raw : Line)
  | invalidDate (raw : Line)
  | invalidValue (raw : Line)
  | invalidCpf (raw : Line)
  | invalidCard (raw : Line)
  | invalidTimeFormat (raw : Line)
  | invalidTime (raw : Line)
  | emptyStoreOwner
  | emptyStoreName
deriving DecidableEq, Repr

/-- Attach the `Line {lineNumber}:` prefix of the C# messages. -/
def CSDetailKind.withLine (n : Nat) : CSDetailKind → CSDetailError
  | .invalidLength len => .invalidLength n len
  | .invalidType c => .invalidType n c
  | .invalidDateFormat raw => .invalidDateFormat n raw
  | .invalidDate raw => .invalidDate n raw
  | .invalidValue raw => .invalidValue n raw
  | .invalidCpf raw => .invalidCpf n raw
  | .invalidCard raw => .invalidCard n raw
  | .invalidTimeFormat raw => .invalidTimeFormat n raw
  | .invalidTime raw => .invalidTime n raw
  | .emptyStoreOwner => .emptyStoreOwner n
  | .emptyStoreName => .emptyStoreName n

/-- The C# card regex `^[\d\*]{12}$`: exactly 12 characters, each a
digit or an asterisk. -/
def csCardOk (l : Line) : Bool :=
  decide ((subLen l 30 12).length = 12) && (subLen l 30 12).all isDigitOrStar

/-- The checks of the C# `ValidateCNABDetailRecord`
(FileUploadService.cs lines 337-423), in source order, returning the
first failure.  Differences from the TypeScript twin: the type may be
any digit, the date ranges are read as YYYYMMDD, and the card accepts
digits *or* asterisks. -/
def csDetailFirstFail (record : Line) : Option CSDetailKind :=
  if record.length ≠ 80 then some (.invalidLength record.length)
  else if ¬ (record.headD ' ').isDigit then
    some (.invalidType (record.headD ' '))
  else if ¬ isDigits (subLen record 1 8) 8 then
    some (.invalidDateFormat (subLen record 1 8))
  else if csOutOfRange (csTryParse (subLen (subLen record 1 8) 6 2)) 1 31
      || csOutOfRange (csTryParse (subLen (subLen record 1 8) 4 2)) 1 12
      || csOutOfRange (csTryParse (subLen (subLen record 1 8) 0 4)) 1900 2100 then
    some (.invalidDate (subLen record 1 8))
  else if ¬ isDigits (subLen record 9 10) 10 then
    some (.invalidValue (subLen record 9 10))
  else if ¬ isDigits (subLen record 19 11) 11 then
    some (.invalidCpf (subLen record 19 11))
  else if ¬ csCardOk record then
    some (.invalidCard (subLen record 30 12))
  else if ¬ isDigits (subLen record 42 6) 6 then
    some (.invalidTimeFormat (subLen record 42 6))
  else if csOutOfRange (csTryParse (subLen (subLen record 42 6) 0 2)) 0 23
      || csOutOfRange (csTryParse (subLen (subLen record 42 6) 2 2)) 0 59
      || csOutOfRange (csTryParse (subLen (subLen record 42 6) 4 2)) 0 59 then
    some (.invalidTime (subLen record 42 6))
  else if isNullOrWhiteSpace (trimWs (subLen record 48 14)) then
    some .emptyStoreOwner
  else if isNullOrWhiteSpace (trimWs (subLen record 62 18)) then
    some .emptyStoreName
  else none

/-- Model of `ValidateCNABDetailRecord` (FileUploadService.cs lines 337-423). -/
def csValidateCNABDetailRecord (record : Line) (lineNumber : Nat) : Option CSDetailError :=
  (csDetailFirstFail record).map (CSDetailKind.withLine lineNumber)

/-- Gregorian leap-year rule (as implemented by `System.DateTime`). -/
def isLeapYear (y : Nat) : Bool :=
  (y % 4 = 0 && y % 100 ≠ 0) || y % 400 = 0

/-- Days in a month of the proleptic Gregorian calendar. -/
def daysInMonth (y m : Nat) : Nat :=
  if m = 2 then (if isLeapYear y then 29 else 28)
  else if m = 4 || m = 6 || m = 9 || m = 11 then 30
  else 31

/-- Validity of the arguments of the C# constructor
`new DateTime(year, month, day, hour, minute, second)`, which throws
`ArgumentOutOfRangeException` otherwise. -/
def csDateTimeOk (y mo d h mi s : Nat) : Bool :=
  1 ≤ y && y ≤ 9999 && 1 ≤ mo && mo ≤ 12 && 1 ≤ d && d ≤ daysInMonth y mo
    && h < 24 && mi < 60 && s < 60

/-- The `ParsedTransaction` built by the C# `ParseContent`
(FileUploadService.cs lines 242-252).  The `Datetime` is kept as its
six constructor arguments; `Value` is kept as the integer cents read
from the 10-digit field (the stored decimal is exactly
`valueCents / 100`, see `csParsedValue`); the GUID `TypeId` is kept as
its repeated digit. -/
structure CSTransaction where
  typeCode : Nat
  typeId : Nat
  year : Nat
  month : Nat
  day : Nat
  hour : Nat
  minute : Nat
  second : Nat
  valueCents : Nat
  cpf : Line
  card : Line
  storeOwner : Line
  storeName : Line
deriving DecidableEq, Repr

/-- The field extraction of the C# `ParseContent` loop body
(FileUploadService.cs lines 220-252) on a line that passed the length,
type and detail-validation checks.  `none` models the wrapped
exceptions of the `catch` block (a failing `int.Parse` or an
out-of-range `new DateTime(...)`, e.g. February 31). -/
def csDecodeLine (l : Line) : Option CSTransaction := do
  let dateStr := subLen l 1 8
  let timeStr := subLen l 42 6
  let y ← csTryParse (subLen dateStr 0 4)
  let mo ← csTryParse (subLen dateStr 4 2)
  let d ← csTryParse (subLen dateStr 6 2)
  let h ← csTryParse (subLen timeStr 0 2)
  let mi ← csTryParse (subLen timeStr 2 2)
  let s ← csTryParse (subLen timeStr 4 2)
  let v ← csTryParse (subLen l 9 10)
  let tc := (l.headD ' ').toNat - '0'.toNat
  let tid ← (csGetTransactionTypeId tc).toOption
  if csDateTimeOk y mo d h mi s then
    some { typeCode := tc, typeId := tid, year := y, month := mo, day := d,
           hour := h, minute := mi, second := s, valueCents := v,
           cpf := subLen l 19 11, card := subLen l 30 12,
           storeOwner := trimWs (subLen l 48 14),
           storeName := trimWs (subLen l 62 18) }
  else none

/-- Errors of the C# `CNABParserService` (thrown as
`CNABParseException`; `ValidateFile` surfaces them as `ex.Message`).
One constructor per distinct message, carrying the interpolated data.
`ParseContent` and `ValidateFile` use the identical record-length
message, hence the shared `invalidRecordLength`. -/
inductive CSError where
  | invalidRecordLength (len : Nat)
  | invalidRecordTypeChar (c : Char)
  | invalidRecordType (t : Nat)
  | detail (e : CSDetailError)
  | errorParsingLine (l : Line)
  | fileEmpty
  | inconsistentLengths (lengths : List Nat)
  | invalidHeader
  | invalidTypeAt (lineNo : Nat)
deriving DecidableEq, Repr

/-- C# `List<string>.IndexOf`: index of the *first* occurrence of the
element (the sources use it to recover a line number, which is wrong
for duplicate lines).  The not-found case cannot arise in the sources. -/
def csIndexOf (base : List Line) (l : Line) : Nat :=
  (base.findIdx? (fun x => x = l)).getD base.length

/-- The `foreach (var line in lines)` loop of the C# `ParseContent`
(FileUploadService.cs lines 186-258): length check, digit check, type
in 1..9, skip type 9, detail validation (with the
`lines.IndexOf(line) + 1` line number against the full list `base`),
then decode. -/
def csProcessLines (base : List Line) : List Line → Except CSError (List CSTransaction)
  | [] => .ok []
  | l :: rest =>
    if l.length ≠ 80 then .error (.invalidRecordLength l.length)
    else if ¬ (l.headD ' ').isDigit then
      .error (.invalidRecordTypeChar (l.headD ' '))
    else if ¬ (1 ≤ (l.headD ' ').toNat - '0'.toNat ∧
        (l.headD ' ').toNat - '0'.toNat ≤ 9) then
      .error (.invalidRecordType ((l.headD ' ').toNat - '0'.toNat))
    else if (l.headD ' ').toNat - '0'.toNat = 9 then csProcessLines base rest
    else
      match csValidateCNABDetailRecord l (csIndexOf base l + 1) with
      | some e => .error (.detail e)
      | none =>
        match csDecodeLine l with
        | some t => (t :: ·) <$> csProcessLines base rest
        | none => .error (.errorParsingLine l)

/-- Model of `CNABParserService.ParseContent` (FileUploadService.cs lines
177-261). -/
def csParseContent (file : CNABFile) : Except CSError (List CSTransaction) :=
  csProcessLines (csKeptLines file) (csKeptLines file)

/-- The `validTypeCodes` array of the C# `ValidateFile`
(FileUploadService.cs line 296): `'1'` through `'9'` — unlike its
TypeScript twin it excludes `'0'` and includes `'6'` and `'7'`. -/
def csLineTypeOk (l : Line) : Bool :=
  (['1', '2', '3', '4', '5', '6', '7', '8', '9'] : List Char).contains (l.headD ' ')

/-- Model of `CNABParserService.ValidateFile` (FileUploadService.cs lines
266-332): preprocessing, nonempty, uniform length, length 80, header
type code, all type codes, optional-trailer note (no effect), and a
final full `ParseContent` pass whose exception message is surfaced. -/
def csValidateFile (file : CNABFile) : Except CSError String :=
  let lines := csKeptLines file
  if lines.isEmpty then .error .fileEmpty
  else
    let uniqueLengths := dedupFirst (lines.map List.length)
    if uniqueLengths.length ≠ 1 then .error (.inconsistentLengths uniqueLengths)
    else if uniqueLengths.headD 0 ≠ 80 then
      .error (.invalidRecordLength (uniqueLengths.headD 0))
    else if ¬ csLineTypeOk (lines.headD []) then .error .invalidHeader
    else
      match firstFailIdx csLineTypeOk lines with
      | some i => .error (.invalidTypeAt (i + 1))
      | none =>
        match csParseContent file with
        | .error e => .error e
        | .ok _ => .ok "CNAB 80"

/- ## Numeric models of the two `value / 100` conversions -/

/-- Round `num / den` (with `den ≠ 0`) to the nearest integer, ties to
even — the rounding mode of IEEE-754 binary64 arithmetic. -/
def roundHalfEven (num den : Nat) : Nat :=
  let q := num / den
  let r := num % den
  if 2 * r < den then q
  else if den < 2 * r then q + 1
  else if q % 2 = 0 then q else q + 1

/-- Fuel-driven `⌊log₂ n⌋` (0 for `n ≤ 1`); `fuel = 256` covers every
value occurring in this development. -/
def floorLog2Aux : Nat → Nat → Nat
  | 0, _ => 0
  | fuel + 1, n => if n ≤ 1 then 0 else floorLog2Aux fuel (n / 2) + 1

/-- Floor of the base-2 logarithm for positive `n`. -/
def floorLog2Nat (n : Nat) : Nat :=
  floorLog2Aux 256 n

/-- Floor of the base-2 logarithm of `a / b` for `a, b ≥ 1` with
`a / b` at least `2 ^ (-64)`, computed
on the scaled integer `⌊a · 2⁶⁴ / b⌋`. -/
def floorLog2Rat (a b : Nat) : Int :=
  (floorLog2Nat (a * 2 ^ 64 / b) : Int) - 64

/-- IEEE-754 binary64 rounding of the positive rational `a / b`
(`a, b ≥ 1`): the scaled significand `m` and binary exponent `e` of the
nearest (ties-to-even) value `m · 2 ^ (e - 52)` with
`2 ⁵² ≤ a / b · 2 ^ (52 - e) < 2 ⁵³`.  The exponent is unbounded here,
which agrees with binary64 on the normal range — every value in this
development lies well inside it, so no overflow or subnormal behaviour
is involved.  The result depends only on the fraction `a / b`, so the
argument pair need not be reduced. -/
def float64Dyadic (a b : Nat) : Nat × Int :=
  let e : Int := floorLog2Rat a b
  let m : Nat :=
    if 0 ≤ 52 - e then roundHalfEven (a * 2 ^ (52 - e).toNat) b
    else roundHalfEven a (b * 2 ^ (e - 52).toNat)
  (m, e)

/-- The rational value `m · 2 ^ (e - 52)` of a scaled significand and
exponent pair. -/
def dyadicVal (p : Nat × Int) : ℚ :=
  if 0 ≤ p.2 - 52 then (p.1 : ℚ) * 2 ^ (p.2 - 52).toNat
  else (p.1 : ℚ) / 2 ^ (52 - p.2).toNat

/-- The amount produced by the TypeScript decoder for integer cents `n`:
`parseInt(valueStr) / 100` is IEEE-754 binary64 division, i.e. the
binary64 value nearest to `n / 100` (the 10-digit `n` itself is exact
in binary64 since `n < 2⁵³`, and it is non-negative, so the sign
handling of binary64 plays no role). -/
def tsParsedValue (n : Nat) : ℚ :=
  if n = 0 then 0 else dyadicVal (float64Dyadic n 100)

/-- The amount produced by the C# decoder for integer cents `n`:
`decimal.Parse(valueStr) / 100m`.  C# `decimal` is a base-10 floating
type with 28-29 significant digits; the quotient of a 10-digit integer
by 100 needs at most 12 significant digits, so the division is exact
and the stored value is exactly `n / 100`. -/
def csParsedValue (n : Nat) : ℚ :=
  (n : ℚ) / 100

/-- The conjunction of every check of the C# `ValidateCNABDetailRecord`
other than the card check (each conjunct is the corresponding guard of
the `if` chain of the source, negated). -/
def csOtherChecksOK (l : Line) : Prop :=
  l.length = 80 ∧ (l.headD ' ').isDigit = true ∧
  isDigits (subLen l 1 8) 8 = true ∧
  (csOutOfRange (csTryParse (subLen (subLen l 1 8) 6 2)) 1 31
    || csOutOfRange (csTryParse (subLen (subLen l 1 8) 4 2)) 1 12
    || csOutOfRange (csTryParse (subLen (subLen l 1 8) 0 4)) 1900 2100) = false ∧
  isDigits (subLen l 9 10) 10 = true ∧
  isDigits (subLen l 19 11) 11 = true ∧
  isDigits (subLen l 42 6) 6 = true ∧
  (csOutOfRange (csTryParse (subLen (subLen l 42 6) 0 2)) 0 23
    || csOutOfRange (csTryParse (subLen (subLen l 42 6) 2 2)) 0 59
    || csOutOfRange (csTryParse (subLen (subLen l 42 6) 4 2)) 0 59) = false ∧
  isNullOrWhiteSpace (trimWs (subLen l 48 14)) = false ∧
  isNullOrWhiteSpace (trimWs (subLen l 62 18)) = false

/-- The conjunction of every check of the TypeScript
`validateCNABDetailRecord` other than the card check. -/
def tsOtherChecksOK (l : Line) : Prop :=
  l.length = 80 ∧ sub l 0 1 = ['1'] ∧
  isDigits (sub l 1 9) 8 = true ∧
  (jsOutOfRange (jsParseInt (sub (sub l 1 9) 0 2)) 1 31
    || jsOutOfRange (jsParseInt (sub (sub l 1 9) 2 4)) 1 12
    || jsOutOfRange (jsParseInt (sub (sub l 1 9) 4 8)) 1900 2100) = false ∧
  isDigits (sub l 9 19) 10 = true ∧
  isDigits (sub l 19 30) 11 = true ∧
  isDigits (sub l 42 48) 6 = true ∧
  (jsOutOfRange (jsParseInt (sub (sub l 42 48) 0 2)) 0 23
    || jsOutOfRange (jsParseInt (sub (sub l 42 48) 2 4)) 0 59
    || jsOutOfRange (jsParseInt (sub (sub l 42 48) 4 6)) 0 59) = false ∧
  (trimWs (sub l 48 62)).length ≠ 0 ∧
  (trimWs (sub l 62 81)).length ≠ 0

/- ## Concrete sample records -/

/-- A well-formed CNAB detail record, valid for both parsers: type 3,
date digits `20190301`, amount field `0000014200`, digit CPF and card,
time `153453`, and non-blank store fields. -/
def goodLine : Line :=
  ("3" ++ "20190301" ++ "0000014200" ++ "09620676017" ++ "475312331533"
    ++ "153453" ++ "JOAO MACEDO   " ++ "BAR DO JOAO       ").toList

/-- A record accepted by both parsers whose 8-digit date field
`20011201` is read as DD=20 MM=01 YYYY=1201 by the TypeScript decoder
and as YYYY=2001 MM=12 DD=01 by the C# decoder. -/
def c2line : Line :=
  ("1" ++ "20011201" ++ "0000014200" ++ "09620676017" ++ "475312331533"
    ++ "123456" ++ "JOAO MACEDO   " ++ "BAR DO JOAO       ").toList

/-- An 80-character line whose first character is `'0'`. -/
def zeroLine : Line := '0' :: List.replicate 79 '1'

/-- An 80-character line whose first character is `'1'`. -/
def oneLine : Line := '1' :: List.replicate 79 '1'

/-- An 80-character line whose first character is `'6'`. -/
def sixLine : Line := '6' :: List.replicate 79 '1'

/-- An 80-character trailer record (type 9). -/
def trailerLine : Line := '9' :: List.replicate 79 '0'

/-- A well-formed record except that its 14-character store-owner field
(offsets 48-62) is entirely spaces. -/
def c5line : Line :=
  ("3" ++ "20190301" ++ "0000014200" ++ "09620676017" ++ "475312331533"
    ++ "153453" ++ "              " ++ "BAR DO JOAO       ").toList

/-- A record satisfying every check of the TypeScript record validator
except that its card field `4753****3153` contains mask characters
(type `'1'`, date `01032019` read as DDMMYYYY). -/
def c8tsline : Line :=
  ("1" ++ "01032019" ++ "0000014200" ++ "09620676017" ++ "4753****3153"
    ++ "153453" ++ "JOAO MACEDO   " ++ "BAR DO JOAO       ").toList

/-- A record satisfying every check of the C# record validator, with a
masked card field `4753****3153` (date `20190301` read as YYYYMMDD). -/
def c8csline : Line :=
  ("1" ++ "20190301" ++ "0000014200" ++ "09620676017" ++ "4753****3153"
    ++ "153453" ++ "JOAO MACEDO   " ++ "BAR DO JOAO       ").toList

/-- The 9-character line of spec Scenario B. -/
def shortLine : Line := "320190301".toList

/-- An 80-character line consisting entirely of spaces. -/
def spacesLine : Line := List.replicate 80 ' '

/-- Civil date of the TypeScript decoder, as the `(year, month, day)`
triple denoted by `new Date(year, month0, day)`; the `month0 + 1`
rendering is exact whenever `0 ≤ month0 < 12` and the day is in range
for the month (JavaScript would otherwise roll the excess over), which
holds for every concrete record considered here.  `none` models an
`Invalid Date` (some component was `NaN`). -/
def tsDateTriple (l : Line) : Option (Int × Int × Int) :=
  match (tsDecodeLine l).year, (tsDecodeLine l).month0, (tsDecodeLine l).day with
  | some y, some m0, some d => some ((y : Int), m0 + 1, (d : Int))
  | _, _, _ => none

/-- Civil date `(year, month, day)` of the C# decoder, from the
`DateTime` it constructs. -/
def csDateTriple (l : Line) : Option (Int × Int × Int) :=
  (csDecodeLine l).map (fun t => ((t.year : Int), (t.month : Int), (t.day : Int)))

/- ## General lemmas about the building blocks of the embedding -/

theorem digit_bounds (c : Char) (h : c.isDigit = true) :
    48 ≤ c.toNat ∧ c.toNat ≤ 57 := by
  simp [Char.isDigit] at h
  obtain ⟨h1, h2⟩ := h
  exact ⟨by simpa [UInt32.le_def, BitVec.le_def, Char.toNat] using h1,
    by simpa [UInt32.le_def, BitVec.le_def, Char.toNat] using h2⟩

theorem char_eq_of_toNat_eq {c : Char} {n : Nat} (hc : c.toNat = n)
    {d : Char} (hd : d.toNat = n) : c = d := by
  apply Char.eq_of_val_eq
  apply UInt32.eq_of_toBitVec_eq
  apply BitVec.eq_of_toNat_eq
  exact hc.trans hd.symm

theorem digit_val_nine {c : Char} (h : c.isDigit = true)
    (h9 : c.toNat - '0'.toNat = 9) : c = '9' := by
  obtain ⟨h1, _⟩ := digit_bounds c h
  have h0 : '0'.toNat = 48 := by decide
  rw [h0] at h9
  exact char_eq_of_toNat_eq (by omega : c.toNat = 57) (by decide)

theorem digit_not_ws {c : Char} (h : c.isDigit = true) : isWs c = false := by
  obtain ⟨h1, _⟩ := digit_bounds c h
  have hs : c ≠ ' ' := by rintro rfl; exact absurd h1 (by decide)
  have ht : c ≠ '\t' := by rintro rfl; exact absurd h1 (by decide)
  have hr : c ≠ '\r' := by rintro rfl; exact absurd h1 (by decide)
  have hn : c ≠ '\n' := by rintro rfl; exact absurd h1 (by decide)
  simp [isWs, hs, ht, hr, hn]

theorem trimWs_eq_nil_iff (l : Line) :
    trimWs l = [] ↔ isNullOrWhiteSpace l = true := by
  unfold trimWs isNullOrWhiteSpace
  rw [List.reverse_eq_nil_iff, List.dropWhile_eq_nil_iff]
  constructor
  · intro h
    rw [List.all_eq_true]
    intro c hc
    rcases List.mem_append.mp ((List.takeWhile_append_dropWhile (p := isWs) (l := l)) ▸ hc) with
      hmem | hmem
    · exact List.mem_takeWhile_imp hmem
    · exact h c (List.mem_reverse.mpr hmem)
  · intro h c hc
    exact (List.all_eq_true.mp h) c
      ((List.dropWhile_sublist isWs).subset (List.mem_reverse.mp hc))

theorem stripCRLF_eq_self {l : Line}
    (h : ∀ c ∈ l, c ≠ '\r' ∧ c ≠ '\n') : stripCRLF l = l := by
  unfold stripCRLF
  have hdw : l.reverse.dropWhile (fun c => c = '\r' || c = '\n') = l.reverse := by
    rcases hrev : l.reverse with _ | ⟨x, xs⟩
    · simp
    · have hx : x ∈ l := by
        rw [← List.mem_reverse, hrev]; exact List.mem_cons_self _ _
      obtain ⟨h1, h2⟩ := h x hx
      rw [List.dropWhile_cons, if_neg (by simp [h1, h2])]
  rw [hdw, List.reverse_reverse]

theorem trimWs_ne_nil_of_digit_head {l : Line} {c : Char}
    (hhead : l.headD ' ' = c) (hne : l ≠ []) (hd : c.isDigit = true) :
    (trimWs l).length > 0 := by
  rcases l with _ | ⟨x, rest⟩
  · exact absurd rfl hne
  · simp only [List.headD_cons] at hhead
    subst hhead
    have hws := digit_not_ws hd
    show 0 < (trimWs (x :: rest)).length
    rw [List.length_pos, Ne, trimWs_eq_nil_iff]
    simp [isNullOrWhiteSpace, hws]

theorem exceptMap_eq_ok {ε α β : Type} (f : α → β) (e : Except ε α) (b : β) :
    (f <$> e) = .ok b ↔ ∃ a, e = .ok a ∧ b = f a := by
  cases e <;> simp [Except.map, eq_comm]

theorem isErr_exceptMap {ε α β : Type} (f : α → β) (e : Except ε α) :
    isErr (f <$> e) = isErr e := by
  cases e <;> simp [Except.map, isErr]

theorem isErr_false_iff {ε α : Type} (e : Except ε α) :
    isErr e = false ↔ ∃ a, e = .ok a := by
  cases e <;> simp [isErr]

theorem sub_zero_one {l : Line} (hne : l ≠ []) : sub l 0 1 = [l.headD ' '] := by
  rcases l with _ | ⟨x, rest⟩
  · exact absurd rfl hne
  · simp [sub]

theorem jsParseInt_single (x : Char) :
    jsParseInt [x] =
      if x.isDigit then some (x.toNat - '0'.toNat) else none := by
  unfold jsParseInt
  by_cases hd : x.isDigit
  · have hws := digit_not_ws hd
    simp [List.dropWhile, List.takeWhile, hws, hd, digitsToNat]
  · by_cases hw : isWs x <;>
      simp [List.dropWhile, List.takeWhile, hw, hd]

theorem jsParseInt_head {l : Line} (hne : l ≠ []) :
    jsParseInt (sub l 0 1) =
      if (l.headD ' ').isDigit then some ((l.headD ' ').toNat - '0'.toNat)
      else none := by
  rw [sub_zero_one hne, jsParseInt_single]

theorem dedupFirst_go_mem (xs : List Nat) :
    ∀ (acc : List Nat) (x : Nat),
      (x ∈ xs.foldl (fun acc x => if x ∈ acc then acc else acc ++ [x]) acc) ↔
        x ∈ acc ∨ x ∈ xs := by
  induction xs with
  | nil => simp
  | cons y ys ih =>
    intro acc x
    simp only [List.foldl_cons]
    by_cases hy : y ∈ acc
    · rw [if_pos hy, ih]
      simp only [List.mem_cons]
      constructor
      · tauto
      · rintro (h | rfl | h) <;> tauto
    · rw [if_neg hy, ih]
      simp only [List.mem_append, List.mem_cons, List.mem_singleton]
      tauto

theorem mem_dedupFirst {x : Nat} {xs : List Nat} :
    x ∈ dedupFirst xs ↔ x ∈ xs := by
  unfold dedupFirst
  rw [dedupFirst_go_mem]
  simp

theorem dedupFirst_go_const (xs : List Nat) (a : Nat) :
    ∀ acc : List Nat, (∀ x ∈ xs, x = a) → a ∈ acc →
      xs.foldl (fun acc x => if x ∈ acc then acc else acc ++ [x]) acc = acc := by
  induction xs with
  | nil => intro acc _ _; rfl
  | cons y ys ih =>
    intro acc hall hmem
    have hy : y = a := hall y (List.mem_cons_self _ _)
    subst hy
    simp only [List.foldl_cons, if_pos hmem]
    exact ih acc (fun x hx => hall x (List.mem_cons_of_mem _ hx)) hmem

theorem dedupFirst_const {xs : List Nat} {a : Nat} (hne : xs ≠ [])
    (hall : ∀ x ∈ xs, x = a) : dedupFirst xs = [a] := by
  rcases xs with _ | ⟨y, ys⟩
  · exact absurd rfl hne
  · have hy : y = a := hall y (List.mem_cons_self _ _)
    unfold dedupFirst
    simp only [List.foldl_cons]
    rw [if_neg (List.not_mem_nil y), List.nil_append, hy]
    exact dedupFirst_go_const ys a [a]
      (fun x hx => hall x (List.mem_cons_of_mem _ hx)) (List.mem_singleton.mpr rfl)

theorem dedupFirst_len_ne_one {xs : List Nat} {a b : Nat} (ha : a ∈ xs)
    (hb : b ∈ xs) (hab : a ≠ b) : (dedupFirst xs).length ≠ 1 := by
  intro hlen
  rcases hd : dedupFirst xs with _ | ⟨c, rest⟩
  · rw [hd] at hlen; simp at hlen
  · rw [hd] at hlen
    simp only [List.length_cons] at hlen
    have hrest : rest = [] := List.length_eq_zero.mp (by omega)
    subst hrest
    have hac : a = c := by
      have := mem_dedupFirst.mpr ha
      rw [hd] at this
      simpa using this
    have hbc : b = c := by
      have := mem_dedupFirst.mpr hb
      rw [hd] at this
      simpa using this
    exact hab (hac.trans hbc.symm)

theorem firstFailIdx_none_iff (ok : Line → Bool) (ls : List Line) :
    firstFailIdx ok ls = none ↔ ∀ l ∈ ls, ok l = true := by
  induction ls with
  | nil => simp [firstFailIdx]
  | cons l rest ih =>
    by_cases h : ok l <;> simp [firstFailIdx, h, ih]

theorem firstFailIdx_some {ok : Line → Bool} {ls : List Line} {i : Nat}
    (h : firstFailIdx ok ls = some i) : ∃ l ∈ ls, ok l = false := by
  induction ls generalizing i with
  | nil => simp [firstFailIdx] at h
  | cons l rest ih =>
    by_cases hok : ok l
    · rw [firstFailIdx, if_neg (by simp [hok])] at h
      rcases Option.map_eq_some'.mp h with ⟨j, hj, _⟩
      obtain ⟨l', hl', hfl⟩ := ih hj
      exact ⟨l', List.mem_cons_of_mem _ hl', hfl⟩
    · exact ⟨l, List.mem_cons_self _ _, by simp [hok]⟩

theorem csDetailFirstFail_ne_none_of_blank_owner {l : Line}
    (howner : isNullOrWhiteSpace (trimWs (subLen l 48 14)) = true) :
    csDetailFirstFail l ≠ none := by
  intro hnone
  unfold csDetailFirstFail at hnone
  iterate 9 (split at hnone; · exact absurd hnone (by simp))
  exact absurd hnone (by simp)

theorem csValidate_ne_none_of_blank_owner {l : Line} {n : Nat}
    (howner : isNullOrWhiteSpace (trimWs (subLen l 48 14)) = true) :
    csValidateCNABDetailRecord l n ≠ none := by
  unfold csValidateCNABDetailRecord
  simp [Option.map_eq_none', csDetailFirstFail_ne_none_of_blank_owner howner]

theorem csValidate_isSome_indep (l : Line) (n₁ n₂ : Nat) :
    (csValidateCNABDetailRecord l n₁).isSome =
      (csValidateCNABDetailRecord l n₂).isSome := by
  unfold csValidateCNABDetailRecord
  simp [Option.isSome_map']


theorem csDetailFirstFail_card {l : Line} (h : csOtherChecksOK l) :
    csDetailFirstFail l =
      if csCardOk l = true then none
      else some (.invalidCard (subLen l 30 12)) := by
  obtain ⟨h1, h2, h3, h4, h5, h6, h7, h8, h9, h10⟩ := h
  unfold csDetailFirstFail
  rw [if_neg (by simp [h1]), if_neg (by simp only [not_not]; exact h2),
    if_neg (by simp [h3]), if_neg (by simp [h4]), if_neg (by simp [h5]),
    if_neg (by simp [h6])]
  by_cases hcard : csCardOk l = true
  · rw [if_neg (by simp [hcard]), if_neg (by simp [h7]), if_neg (by simp [h8]),
      if_neg (by simp [h9]), if_neg (by simp [h10]), if_pos hcard]
  · rw [if_pos (by simpa using hcard), if_neg hcard]

theorem tsDetailFirstFail_card {l : Line} (h : tsOtherChecksOK l) :
    tsDetailFirstFail l =
      if isDigits (sub l 30 42) 12 = true then none
      else some (.invalidCard (sub l 30 42)) := by
  obtain ⟨h1, h2, h3, h4, h5, h6, h7, h8, h9, h10⟩ := h
  unfold tsDetailFirstFail
  rw [if_neg (by simp [h1]), if_neg (by simp [h2]), if_neg (by simp [h3]),
    if_neg (by simp [h4]), if_neg (by simp [h5]), if_neg (by simp [h6])]
  by_cases hcard : isDigits (sub l 30 42) 12 = true
  · rw [if_neg (by simp [hcard]), if_neg (by simp [h7]), if_neg (by simp [h8]),
      if_neg (by simp [h9]), if_neg (by simp [h10]), if_pos hcard]
  · rw [if_pos (by simpa using hcard), if_neg hcard]

theorem tsParseLines_isErr_of_badlen {ls : List Line}
    (h : ∃ l ∈ ls, l.length ≠ 80) : isErr (tsParseLines ls) = true := by
  induction ls with
  | nil => simp at h
  | cons l rest ih =>
    obtain ⟨x, hx, hlen⟩ := h
    unfold tsParseLines
    by_cases h80 : l.length ≠ 80
    · rw [if_pos h80]; rfl
    · rw [if_neg h80]
      have hxrest : x ∈ rest := by
        rcases List.mem_cons.mp hx with rfl | h'
        · exact absurd hlen h80
        · exact h'
      have hrest := ih ⟨x, hxrest, hlen⟩
      by_cases ht : tsValidType (jsParseInt (sub l 0 1))
      · rw [if_neg (by simp [ht])]
        by_cases h9 : jsParseInt (sub l 0 1) = some 9
        · rw [if_pos h9]; exact hrest
        · rw [if_neg h9, isErr_exceptMap]; exact hrest
      · rw [if_pos (by simp [ht])]; rfl

theorem csProcessLines_isErr_of_badlen {base : List Line} {ls : List Line}
    (h : ∃ l ∈ ls, l.length ≠ 80) :
    isErr (csProcessLines base ls) = true := by
  induction ls with
  | nil => simp at h
  | cons l rest ih =>
    obtain ⟨x, hx, hlen⟩ := h
    unfold csProcessLines
    by_cases h80 : l.length ≠ 80
    · rw [if_pos h80]; rfl
    · rw [if_neg h80]
      have hxrest : x ∈ rest := by
        rcases List.mem_cons.mp hx with rfl | h'
        · exact absurd hlen h80
        · exact h'
      have hrest := ih ⟨x, hxrest, hlen⟩
      by_cases hdig : (l.headD ' ').isDigit
      · rw [if_neg (by simpa using hdig)]
        by_cases htype : 1 ≤ (l.headD ' ').toNat - '0'.toNat ∧
            (l.headD ' ').toNat - '0'.toNat ≤ 9
        · rw [if_neg (by simpa using htype)]
          by_cases h9 : (l.headD ' ').toNat - '0'.toNat = 9
          · rw [if_pos h9]; exact hrest
          · rw [if_neg h9]
            rcases hv : csValidateCNABDetailRecord l (csIndexOf base l + 1) with _ | e
            · rcases hd : csDecodeLine l with _ | t
              · rfl
              · rw [isErr_exceptMap]; exact hrest
            · rfl
        · rw [if_pos (by simp only [not_and_or] at htype ⊢; omega)]; rfl
      · rw [if_pos (by simpa using hdig)]; rfl

theorem csProcessLines_isErr_of_blank_owner {base ls : List Line}
    (h : ∃ l ∈ ls, l.length = 80 ∧ l.headD ' ' ≠ '9' ∧
      isNullOrWhiteSpace (trimWs (subLen l 48 14)) = true) :
    isErr (csProcessLines base ls) = true := by
  induction ls with
  | nil => simp at h
  | cons l rest ih =>
    unfold csProcessLines
    by_cases h80 : l.length ≠ 80
    · rw [if_pos h80]; rfl
    · rw [if_neg h80]
      by_cases hdig : (l.headD ' ').isDigit
      · rw [if_neg (by simpa using hdig)]
        by_cases htype : 1 ≤ (l.headD ' ').toNat - '0'.toNat ∧
            (l.headD ' ').toNat - '0'.toNat ≤ 9
        · rw [if_neg (by simpa using htype)]
          by_cases h9 : (l.headD ' ').toNat - '0'.toNat = 9
          · rw [if_pos h9]
            have hl9 : l.headD ' ' = '9' := digit_val_nine hdig h9
            rcases h with ⟨x, hx, hxlen, hxhead, hxowner⟩
            rcases List.mem_cons.mp hx with rfl | hxrest
            · exact absurd hl9 hxhead
            · exact ih ⟨x, hxrest, hxlen, hxhead, hxowner⟩
          · rw [if_neg h9]
            rcases h with ⟨x, hx, hxlen, hxhead, hxowner⟩
            rcases List.mem_cons.mp hx with rfl | hxrest
            · rcases hv : csValidateCNABDetailRecord x (csIndexOf base x + 1)
                with _ | e
              · exact absurd hv (csValidate_ne_none_of_blank_owner hxowner)
              · rfl
            · rcases hv : csValidateCNABDetailRecord l (csIndexOf base l + 1)
                with _ | e
              · rcases hd : csDecodeLine l with _ | t
                · rfl
                · rw [isErr_exceptMap]
                  exact ih ⟨x, hxrest, hxlen, hxhead, hxowner⟩
              · rfl
        · rw [if_pos (by simp only [not_and_or] at htype ⊢; omega)]; rfl
      · rw [if_pos (by simpa using hdig)]; rfl

theorem tsValidType_head {l : Line} (hne : l ≠ [])
    (hv : tsValidType (jsParseInt (sub l 0 1)) = true) :
    (l.headD ' ').isDigit = true ∧
      jsParseInt (sub l 0 1) = some ((l.headD ' ').toNat - '0'.toNat) := by
  rw [jsParseInt_head hne] at hv ⊢
  by_cases hd : (l.headD ' ').isDigit
  · exact ⟨hd, by rw [if_pos hd]⟩
  · rw [if_neg hd] at hv
    simp [tsValidType] at hv

theorem head_nine_of_parse_nine {l : Line} (hne : l ≠ [])
    (h9 : jsParseInt (sub l 0 1) = some 9) : l.headD ' ' = '9' := by
  rw [jsParseInt_head hne] at h9
  by_cases hd : (l.headD ' ').isDigit
  · rw [if_pos hd] at h9
    exact digit_val_nine hd (by simpa using h9)
  · rw [if_neg hd] at h9; simp at h9

theorem parse_nine_of_head_nine {l : Line}
    (hh : l.headD ' ' = '9') (hne : l ≠ []) :
    jsParseInt (sub l 0 1) = some 9 := by
  rw [jsParseInt_head hne, hh]
  decide

theorem tsParseLines_ok_eq {ls : List Line} :
    ∀ {b}, tsParseLines ls = .ok b →
      b = (ls.filter (fun l => l.headD ' ' ≠ '9')).map tsDecodeLine := by
  induction ls with
  | nil => intro b h; simp [tsParseLines] at h; simp [← h]
  | cons l rest ih =>
    intro b h
    unfold tsParseLines at h
    by_cases h80 : l.length ≠ 80
    · rw [if_pos h80] at h; exact absurd h (by simp)
    · rw [if_neg h80] at h
      have hne : l ≠ [] := by
        intro hnil; rw [hnil] at h80; simp at h80
      by_cases hv : tsValidType (jsParseInt (sub l 0 1))
      · rw [if_neg (by simp [hv])] at h
        obtain ⟨hdig, hval⟩ := tsValidType_head hne hv
        by_cases h9 : jsParseInt (sub l 0 1) = some 9
        · rw [if_pos h9] at h
          have hhead : l.headD ' ' = '9' := head_nine_of_parse_nine hne h9
          rw [List.filter_cons, if_neg (by simpa using hhead)]
          exact ih h
        · rw [if_neg h9] at h
          rcases (exceptMap_eq_ok _ _ _).mp h with ⟨b', hb', rfl⟩
          have hhead : l.headD ' ' ≠ '9' := by
            intro hh
            exact h9 (parse_nine_of_head_nine hh hne)
          rw [List.filter_cons, if_pos (by simpa using hhead)]
          simp [ih hb']
      · rw [if_pos (by simp [hv])] at h; exact absurd h (by simp)

theorem csProcessLines_ok_eq {base : List Line} {ls : List Line} :
    ∀ {b}, csProcessLines base ls = .ok b →
      (ls.filter (fun l => l.headD ' ' ≠ '9')).map csDecodeLine = b.map some := by
  induction ls with
  | nil => intro b h; simp [csProcessLines] at h; simp [← h]
  | cons l rest ih =>
    intro b h
    unfold csProcessLines at h
    by_cases h80 : l.length ≠ 80
    · rw [if_pos h80] at h; exact absurd h (by simp)
    · rw [if_neg h80] at h
      by_cases hdig : (l.headD ' ').isDigit
      · rw [if_neg (by simpa using hdig)] at h
        by_cases htype : 1 ≤ (l.headD ' ').toNat - '0'.toNat ∧
            (l.headD ' ').toNat - '0'.toNat ≤ 9
        · rw [if_neg (by simpa using htype)] at h
          by_cases h9 : (l.headD ' ').toNat - '0'.toNat = 9
          · rw [if_pos h9] at h
            have hhead : l.headD ' ' = '9' := digit_val_nine hdig h9
            rw [List.filter_cons, if_neg (by simpa using hhead)]
            exact ih h
          · rw [if_neg h9] at h
            rcases hv : csValidateCNABDetailRecord l (csIndexOf base l + 1)
              with _ | e
            · rw [hv] at h
              rcases hd : csDecodeLine l with _ | t
              · rw [hd] at h; exact absurd h (by simp)
              · rw [hd] at h
                rcases (exceptMap_eq_ok _ _ _).mp h with ⟨b', hb', rfl⟩
                have hhead : l.headD ' ' ≠ '9' := by
                  intro hh
                  rw [hh] at h9
                  exact h9 (by decide)
                rw [List.filter_cons, if_pos (by simpa using hhead)]
                rw [List.map_cons, List.map_cons, hd, ih hb']
            · rw [hv] at h; exact absurd h (by simp)
        · rw [if_pos (by simp only [not_and_or] at htype ⊢; omega)] at h
          exact absurd h (by simp)
      · rw [if_pos (by simpa using hdig)] at h; exact absurd h (by simp)

theorem tsParseLines_skip9 {l9 : Line} (h80 : l9.length = 80)
    (h9 : l9.headD ' ' = '9') :
    ∀ xs ys : List Line,
      tsParseLines (xs ++ l9 :: ys) = tsParseLines (xs ++ ys) := by
  have hne : l9 ≠ [] := by
    intro hnil; rw [hnil] at h80; simp at h80
  intro xs
  induction xs with
  | nil =>
    intro ys
    rw [List.nil_append, List.nil_append]
    simp only [tsParseLines]
    rw [if_neg (by simp [h80]), if_neg (by simp [tsValidType,
      parse_nine_of_head_nine h9 hne]), if_pos (parse_nine_of_head_nine h9 hne)]
  | cons x xs ih =>
    intro ys
    rw [List.cons_append, List.cons_append]
    simp only [tsParseLines]
    split_ifs <;> first | rfl | exact ih ys | rw [ih ys]

theorem csProcessLines_skip9 {l9 : Line} (h80 : l9.length = 80)
    (h9 : l9.headD ' ' = '9') (base : List Line) :
    ∀ xs ys : List Line,
      csProcessLines base (xs ++ l9 :: ys) = csProcessLines base (xs ++ ys) := by
  intro xs
  induction xs with
  | nil =>
    intro ys
    rw [List.nil_append, List.nil_append]
    simp only [csProcessLines]
    rw [if_neg (by simp [h80]), h9,
      if_neg (by decide : ¬ ¬ ('9').isDigit = true),
      if_neg (by decide : ¬ ¬ (1 ≤ '9'.toNat - '0'.toNat ∧ '9'.toNat - '0'.toNat ≤ 9)),
      if_pos (by decide : '9'.toNat - '0'.toNat = 9)]
  | cons x xs ih =>
    intro ys
    rw [List.cons_append, List.cons_append]
    simp only [csProcessLines]
    split_ifs <;> try rfl
    · exact ih ys
    · rcases csValidateCNABDetailRecord x (csIndexOf base x + 1) with _ | e
      · rcases csDecodeLine x with _ | t
        · rfl
        · rw [ih ys]
      · rfl

theorem csProcessLines_ok_iff_base (b1 b2 : List Line) :
    ∀ (ls : List Line) (b : List CSTransaction),
      csProcessLines b1 ls = .ok b ↔ csProcessLines b2 ls = .ok b := by
  intro ls
  induction ls with
  | nil => intro b; rfl
  | cons l rest ih =>
    intro b
    simp only [csProcessLines]
    split_ifs <;> try rfl
    · exact ih b
    · have hsome := csValidate_isSome_indep l
        (csIndexOf b1 l + 1) (csIndexOf b2 l + 1)
      rcases hv1 : csValidateCNABDetailRecord l (csIndexOf b1 l + 1)
        with _ | e1 <;>
        rcases hv2 : csValidateCNABDetailRecord l (csIndexOf b2 l + 1)
          with _ | e2
      · rcases hd : csDecodeLine l with _ | t
        · simp
        · rw [exceptMap_eq_ok, exceptMap_eq_ok]
          constructor
          · rintro ⟨a, ha, rfl⟩
            exact ⟨a, (ih a).mp ha, rfl⟩
          · rintro ⟨a, ha, rfl⟩
            exact ⟨a, (ih a).mpr ha, rfl⟩
      · rw [hv1, hv2] at hsome; simp at hsome
      · rw [hv1, hv2] at hsome; simp at hsome
      · simp


/- ## The claims -/

/-- C2: there is an 80-character record (`c2line`, date field
`20011201`) accepted by both parallel parser implementations on which
the TypeScript decoder (DDMMYYYY at offsets 1-9) and the C# decoder
(YYYYMMDD at the same offsets) produce different timestamps: the
TypeScript decoder reads civil date 1201-01-20 while the C# decoder
reads 2001-12-01.  The two decoders are not extensionally equal on the
date field. -/
theorem C2_date_interpretations_diverge :
    isErr (tsParseCNABContent [c2line]) = false ∧
    isErr (csParseContent [c2line]) = false ∧
    tsDateTriple c2line = some (1201, 1, 20) ∧
    csDateTriple c2line = some (2001, 12, 1) ∧
    tsDateTriple c2line ≠ csDateTriple c2line := by
  refine ⟨by decide, by decide, by decide, by decide, by decide⟩

/-- C4 counterexample: the claim says every catalog lookup fails with
an "unknown type code" error for a code outside 1-9, but
`getTransactionTypeInfo` (src/unnamed/part_010 lines 6-20) does not
fail at code 0: it returns the placeholder record whose name is
Unknown, description is Unknown transaction type, nature is Unknown
and sign is a question mark. -/
theorem C4_counterexample :
    getTransactionTypeInfo 0 = unknownTypeInfo ∧
    unknownTypeInfo.name = "Unknown" := by
  exact ⟨rfl, rfl⟩

/-- C4 amended: for every integer code outside 1-9,
`mapTypeCodeToName`, `GetTransactionTypeName` and
`GetTransactionTypeId` fail with an invalid-type-code error, while
`getTransactionTypeInfo` instead returns the `Unknown` placeholder
record rather than failing. -/
theorem C4_amended (c : Int) (h : c < 1 ∨ 9 < c) :
    isErr (mapTypeCodeToName c) = true ∧
    isErr (csGetTransactionTypeName c) = true ∧
    isErr (csGetTransactionTypeId c) = true ∧
    getTransactionTypeInfo c = unknownTypeInfo := by
  have h1 : c ≠ 1 := by omega
  have h2 : c ≠ 2 := by omega
  have h3 : c ≠ 3 := by omega
  have h4 : c ≠ 4 := by omega
  have h5 : c ≠ 5 := by omega
  have h6 : c ≠ 6 := by omega
  have h7 : c ≠ 7 := by omega
  have h8 : c ≠ 8 := by omega
  have h9 : c ≠ 9 := by omega
  have hid : ¬ (1 ≤ c ∧ c ≤ 9) := by omega
  refine ⟨?_, ?_, ?_, ?_⟩ <;>
    simp [mapTypeCodeToName, csGetTransactionTypeName, csGetTransactionTypeId,
      getTransactionTypeInfo, isErr, h1, h2, h3, h4, h5, h6, h7, h8, h9, hid]

/-- C4 witness: the amended statement instantiated at code 0. -/
theorem C4_witness :
    ((0 : Int) < 1 ∨ 9 < (0 : Int)) ∧
    (isErr (mapTypeCodeToName 0) = true ∧
      isErr (csGetTransactionTypeName 0) = true ∧
      isErr (csGetTransactionTypeId 0) = true ∧
      getTransactionTypeInfo 0 = unknownTypeInfo) :=
  ⟨by decide, C4_amended 0 (by decide)⟩

/-- C3 counterexample: the claim says the decoded amount equals the
10-digit field divided by 100 exactly, with no floating-point rounding
drift, for all 10-digit values.  The TypeScript decoder computes
`parseInt(valueStr) / 100` in IEEE-754 binary64; at field
`"0000000001"` the result is the binary64 value 5764607523034235/2⁵⁹,
which is not the rational 1/100. -/
theorem C3_counterexample :
    tsParsedValue (digitsToNat ("0000000001").toList) ≠
      (digitsToNat ("0000000001").toList : ℚ) / 100 := by
  have hd : digitsToNat ("0000000001").toList = 1 := by decide
  rw [hd, tsParsedValue, if_neg (by decide),
    show float64Dyadic 1 100 = (5764607523034235, -7) from by decide]
  norm_num [dyadicVal, show ((59 : Int).toNat) = 59 from rfl]

/-- C3 amended: the C# decoder (`decimal.Parse(valueStr) / 100m`) is
exact for every 10-digit field value, and the TypeScript decoder
(binary64 `parseInt(valueStr) / 100`) agrees with the exact value on
fields whose quotient is a dyadic rational — e.g. `0000014200` decodes
to exactly 142 in both — but drifts on others, e.g. field
`0000000001`. -/
theorem C3_amended :
    (∀ n : Nat, n < 10 ^ 10 → csParsedValue n = (n : ℚ) / 100) ∧
    tsParsedValue 14200 = 142 ∧
    tsParsedValue 1 ≠ (1 : ℚ) / 100 := by
  refine ⟨fun n _ => rfl, ?_, ?_⟩
  · rw [tsParsedValue, if_neg (by decide),
      show float64Dyadic 14200 100 = (142 * 2 ^ 45, 7) from by decide]
    norm_num [dyadicVal, show ((45 : Int).toNat) = 45 from rfl]
  · rw [tsParsedValue, if_neg (by decide),
      show float64Dyadic 1 100 = (5764607523034235, -7) from by decide]
    norm_num [dyadicVal, show ((59 : Int).toNat) = 59 from rfl]

/-- C3 witness: the amended statement instantiated at the 10-digit
field value 14200 (spec example `"0000014200"` → exactly 142.00). -/
theorem C3_witness :
    14200 < 10 ^ 10 ∧ csParsedValue 14200 = (14200 : ℚ) / 100 :=
  ⟨by norm_num, C3_amended.1 14200 (by norm_num)⟩

/-- C1 counterexample: the claim says the structural validator accepts
a uniform-80 file only when every line starts with a digit 1-9,
rejecting `'0'` and accepting `'6'`/`'7'`.  The TypeScript
`validateCNABFile` does the opposite: it accepts a file whose only line
starts with `'0'`, and rejects a file containing a line starting with
`'6'` (with the error for line 2). -/
theorem C1_counterexample :
    tsValidateCNABFile [zeroLine] = .ok "CNAB 80" ∧
    tsValidateCNABFile [oneLine, sixLine] = .error (.invalidTypeAt 2) := by
  refine ⟨by decide, by decide⟩

theorem map_each_eq {f : Line → Line} :
    ∀ {file : CNABFile}, (∀ l ∈ file, f l = l) → file.map f = file := by
  intro file
  induction file with
  | nil => intro _; rfl
  | cons l rest ih =>
    intro h
    rw [List.map_cons, h l (List.mem_cons_self _ _),
      ih (fun x hx => h x (List.mem_cons_of_mem _ hx))]

theorem headD_mem {file : CNABFile} (hne : file ≠ []) :
    file.headD [] ∈ file := by
  rcases file with _ | ⟨l, rest⟩
  · exact absurd rfl hne
  · simp

/-- C1 amended: for a nonempty file of uniform 80-character CR-free
non-blank lines, the TypeScript `validateCNABFile` accepts exactly when
the first character of every line lies in its `validTypeCodes` set
`{'0','1','2','3','4','5','8','9'}` (`tsLineTypeOk`) — so a leading
`'0'` is accepted and a leading `'6'` or `'7'` is rejected with an
error identifying the line — while the C# `ValidateFile` accepts only
files whose lines all start with a digit `'1'`-`'9'` (`csLineTypeOk`)
and rejects any file violating that, as the claim stated. -/
theorem C1_amended (file : CNABFile) (hne : file ≠ [])
    (hgood : ∀ l ∈ file, l.length = 80 ∧ (∀ c ∈ l, c ≠ '\r' ∧ c ≠ '\n') ∧
      isNullOrWhiteSpace l = false) :
    (isErr (tsValidateCNABFile file) = false ↔
      ∀ l ∈ file, tsLineTypeOk l = true) ∧
    (isErr (csValidateFile file) = false → ∀ l ∈ file, csLineTypeOk l = true) ∧
    ((∃ l ∈ file, csLineTypeOk l = false) → isErr (csValidateFile file) = true) := by
  have hmap : file.map stripCRLF = file :=
    map_each_eq (fun l hl => stripCRLF_eq_self (hgood l hl).2.1)
  have hlen80 : ∀ l ∈ file, l.length = 80 := fun l hl => (hgood l hl).1
  have htsfilter : file.filter (fun l => l.length > 0) = file :=
    List.filter_eq_self.mpr (fun l hl => by simp [hlen80 l hl])
  have hcsfilter : file.filter (fun l => ¬ isNullOrWhiteSpace l) = file :=
    List.filter_eq_self.mpr (fun l hl => by simp [(hgood l hl).2.2])
  have hfne : file.map List.length ≠ [] := by simp [hne]
  have hdedup : dedupFirst (file.map List.length) = [80] :=
    dedupFirst_const hfne (by
      intro x hx
      rcases List.mem_map.mp hx with ⟨l, hl, rfl⟩
      exact hlen80 l hl)
  have hkept : csKeptLines file = file := by
    unfold csKeptLines
    rw [hmap, hcsfilter]
  refine ⟨?_, ?_, ?_⟩
  · simp only [tsValidateCNABFile]
    rw [hmap, htsfilter, hdedup]
    rw [if_neg (by simp [hne]), if_neg (by simp), if_neg (by simp)]
    by_cases hhead : tsLineTypeOk (file.headD [])
    · rw [if_neg (by simpa using hhead)]
      rcases hf : firstFailIdx tsLineTypeOk file with _ | i
      · constructor
        · intro _; exact (firstFailIdx_none_iff _ _).mp hf
        · intro _; rfl
      · constructor
        · intro hfalse; exact absurd hfalse (by simp [isErr])
        · intro hall
          obtain ⟨l, hl, hbad⟩ := firstFailIdx_some hf
          exact absurd (hall l hl) (by simp [hbad])
    · rw [if_pos (by simpa using hhead)]
      constructor
      · intro hfalse; exact absurd hfalse (by simp [isErr])
      · intro hall; exact absurd (hall _ (headD_mem hne)) (by simpa using hhead)
  · simp only [csValidateFile]
    rw [hkept, hdedup]
    rw [if_neg (by simp [hne]), if_neg (by simp), if_neg (by simp)]
    by_cases hhead : csLineTypeOk (file.headD [])
    · rw [if_neg (by simpa using hhead)]
      rcases hf : firstFailIdx csLineTypeOk file with _ | i
      · intro _
        exact (firstFailIdx_none_iff _ _).mp hf
      · intro hfalse; exact absurd hfalse (by simp [isErr])
    · rw [if_pos (by simpa using hhead)]
      intro hfalse; exact absurd hfalse (by simp [isErr])
  · simp only [csValidateFile]
    rw [hkept, hdedup]
    rw [if_neg (by simp [hne]), if_neg (by simp), if_neg (by simp)]
    by_cases hhead : csLineTypeOk (file.headD [])
    · rw [if_neg (by simpa using hhead)]
      rcases hf : firstFailIdx csLineTypeOk file with _ | i
      · intro hex
        obtain ⟨l, hl, hbad⟩ := hex
        have hall := (firstFailIdx_none_iff _ _).mp hf
        exact absurd (hall l hl) (by simp [hbad])
      · intro _; rfl
    · rw [if_pos (by simpa using hhead)]
      intro _; rfl

/-- C1 witness: the amended statement instantiated at the one-line file
`[oneLine]`. -/
theorem C1_witness :
    (([oneLine] : CNABFile) ≠ [] ∧
      (∀ l ∈ ([oneLine] : CNABFile), l.length = 80 ∧
        (∀ c ∈ l, c ≠ '\r' ∧ c ≠ '\n') ∧ isNullOrWhiteSpace l = false)) ∧
    ((isErr (tsValidateCNABFile [oneLine]) = false ↔
        ∀ l ∈ ([oneLine] : CNABFile), tsLineTypeOk l = true) ∧
      (isErr (csValidateFile [oneLine]) = false →
        ∀ l ∈ ([oneLine] : CNABFile), csLineTypeOk l = true) ∧
      ((∃ l ∈ ([oneLine] : CNABFile), csLineTypeOk l = false) →
        isErr (csValidateFile [oneLine]) = true)) :=
  ⟨⟨by decide, by decide⟩, C1_amended [oneLine] (by decide) (by decide)⟩

/-- C5 counterexample: the claim says any file with a non-trailer
80-character line whose store-owner field is all spaces fails to parse.
The TypeScript `parseCNABContent` performs no per-field validation: on
the file `[c5line]` (valid record except an all-space owner field) it
returns a batch with one transaction whose `storeOwner` is the empty
string, while the C# parser rejects the same file with the
store-owner error for line 1. -/
theorem C5_counterexample :
    tsParseCNABContent [c5line] = .ok [tsDecodeLine c5line] ∧
    (tsDecodeLine c5line).storeOwner = [] ∧
    csParseContent [c5line] = .error (.detail (.emptyStoreOwner 1)) := by
  refine ⟨by decide, by decide, by decide⟩

/-- C5 amended: for every file containing a kept non-trailer
80-character line whose 14-character store-owner field is all spaces,
the C# `ParseContent` fails (with the store-owner error naming the
line when the earlier fields of the line are valid, as in the witness),
returning no batch; the TypeScript `parseCNABContent`, which has no
per-field validation, instead accepts such a record and produces a
transaction whose `storeOwner` is empty. -/
theorem C5_amended :
    (∀ file : CNABFile,
      (∃ l ∈ csKeptLines file, l.length = 80 ∧ l.headD ' ' ≠ '9' ∧
        (subLen l 48 14).all (· = ' ') = true) →
      isErr (csParseContent file) = true) ∧
    (∀ l : Line, l.length = 80 →
      tsValidType (jsParseInt (sub l 0 1)) = true →
      jsParseInt (sub l 0 1) ≠ some 9 →
      (subLen l 48 14).all (· = ' ') = true →
      tsParseCNABContent [l] = .ok [tsDecodeLine l] ∧
        (tsDecodeLine l).storeOwner = []) := by
  constructor
  · rintro file ⟨l, hl, hlen, hhead, hsp⟩
    have hws : isNullOrWhiteSpace (subLen l 48 14) = true := by
      simp only [isNullOrWhiteSpace, List.all_eq_true] at hsp ⊢
      intro c hc
      have := hsp c hc
      simp only [decide_eq_true_eq] at this
      rw [this]; rfl
    have htr : isNullOrWhiteSpace (trimWs (subLen l 48 14)) = true := by
      rw [(trimWs_eq_nil_iff _).mpr hws]; rfl
    exact csProcessLines_isErr_of_blank_owner ⟨l, hl, hlen, hhead, htr⟩
  · intro l h80 hv h9 hsp
    have hne : l ≠ [] := by
      intro hnil; rw [hnil] at h80; simp at h80
    obtain ⟨hdig, hval⟩ := tsValidType_head hne hv
    have hws : isNullOrWhiteSpace (subLen l 48 14) = true := by
      simp only [isNullOrWhiteSpace, List.all_eq_true] at hsp ⊢
      intro c hc
      have := hsp c hc
      simp only [decide_eq_true_eq] at this
      rw [this]; rfl
    constructor
    · unfold tsParseCNABContent
      have hkeep : (trimWs l).length > 0 :=
        trimWs_ne_nil_of_digit_head rfl hne hdig
      rw [show List.filter (fun l => (trimWs l).length > 0) [l] = [l] from by
        simp only [List.filter_cons, List.filter_nil]
        rw [if_pos (by simpa using hkeep)]]
      simp only [tsParseLines]
      rw [if_neg (by simp [h80]), if_neg (by simp [hv]), if_neg h9]
      rfl
    · show trimWs (sub l 48 62) = []
      exact (trimWs_eq_nil_iff _).mpr hws

/-- C5 witness: the amended statement instantiated at the one-line file
`[c5line]` for the C# part and at `c5line` for the TypeScript part. -/
theorem C5_witness :
    ((∃ l ∈ csKeptLines [c5line], l.length = 80 ∧ l.headD ' ' ≠ '9' ∧
        (subLen l 48 14).all (· = ' ') = true) ∧
      isErr (csParseContent [c5line]) = true) ∧
    (c5line.length = 80 ∧
      tsValidType (jsParseInt (sub c5line 0 1)) = true ∧
      jsParseInt (sub c5line 0 1) ≠ some 9 ∧
      (subLen c5line 48 14).all (· = ' ') = true ∧
      (tsParseCNABContent [c5line] = .ok [tsDecodeLine c5line] ∧
        (tsDecodeLine c5line).storeOwner = [])) :=
  ⟨⟨by decide, C5_amended.1 [c5line] (by decide)⟩,
    by decide, by decide, by decide, by decide,
    C5_amended.2 c5line (by decide) (by decide) (by decide) (by decide)⟩

/-- C6: for every file in which two distinct line lengths occur among
the kept lines (line endings stripped, whitespace-only lines dropped),
both structural validators reject the file with the
inconsistent-lengths error reporting the distinct lengths found, and
both parsers produce an error — zero transactions, never a partial
batch (the parsers return `Except` values: a complete batch or a
single error). -/
theorem C6_reject_on_mixed_lengths (file : CNABFile)
    (hcr : ∀ l ∈ file, ∀ c ∈ l, c ≠ '\r' ∧ c ≠ '\n')
    (h2 : ∃ l1 ∈ csKeptLines file, ∃ l2 ∈ csKeptLines file,
      l1.length ≠ l2.length) :
    tsValidateCNABFile file = .error (.inconsistentLengths
      (dedupFirst ((file.filter (fun l => l.length > 0)).map List.length))) ∧
    csValidateFile file = .error (.inconsistentLengths
      (dedupFirst ((csKeptLines file).map List.length))) ∧
    isErr (tsParseCNABContent file) = true ∧
    isErr (csParseContent file) = true := by
  obtain ⟨l1, hl1, l2, hl2, hne12⟩ := h2
  have hmap : file.map stripCRLF = file :=
    map_each_eq (fun l hl => stripCRLF_eq_self (hcr l hl))
  have hkept : csKeptLines file = file.filter (fun l => ¬ isNullOrWhiteSpace l) := by
    unfold csKeptLines; rw [hmap]
  have hmem : ∀ l, l ∈ csKeptLines file →
      l ∈ file ∧ isNullOrWhiteSpace l = false := by
    intro l hl
    rw [hkept] at hl
    obtain ⟨hf, hp⟩ := List.mem_filter.mp hl
    exact ⟨hf, by simpa using hp⟩
  obtain ⟨hl1f, hl1ws⟩ := hmem l1 hl1
  obtain ⟨hl2f, hl2ws⟩ := hmem l2 hl2
  have hlen_pos : ∀ l : Line, isNullOrWhiteSpace l = false → l.length > 0 := by
    intro l hws
    rcases l with _ | ⟨c, rest⟩
    · simp [isNullOrWhiteSpace] at hws
    · simp
  have htrim_pos : ∀ l : Line, isNullOrWhiteSpace l = false →
      (trimWs l).length > 0 := by
    intro l hws
    show 0 < (trimWs l).length
    rw [List.length_pos, Ne, trimWs_eq_nil_iff]
    simp [hws]
  have hts1 : l1 ∈ file.filter (fun l => l.length > 0) :=
    List.mem_filter.mpr ⟨hl1f, by simpa using hlen_pos l1 hl1ws⟩
  have hts2 : l2 ∈ file.filter (fun l => l.length > 0) :=
    List.mem_filter.mpr ⟨hl2f, by simpa using hlen_pos l2 hl2ws⟩
  have hbad : ∀ s : List Line, l1 ∈ s → l2 ∈ s → ∃ l ∈ s, l.length ≠ 80 := by
    intro s h1 h2
    by_cases h80 : l1.length = 80
    · exact ⟨l2, h2, by omega⟩
    · exact ⟨l1, h1, h80⟩
  have hdedup_ne : ∀ s : List Line, l1 ∈ s → l2 ∈ s →
      (dedupFirst (s.map List.length)).length ≠ 1 := by
    intro s h1 h2
    exact dedupFirst_len_ne_one (List.mem_map_of_mem _ h1)
      (List.mem_map_of_mem _ h2) hne12
  refine ⟨?_, ?_, ?_, ?_⟩
  · simp only [tsValidateCNABFile]
    rw [hmap]
    rw [if_neg (by simp [List.ne_nil_of_mem hts1]),
      if_pos (hdedup_ne _ hts1 hts2)]
  · simp only [csValidateFile]
    rw [if_neg (by simp [List.ne_nil_of_mem hl1]),
      if_pos (hdedup_ne _ hl1 hl2)]
  · unfold tsParseCNABContent
    apply tsParseLines_isErr_of_badlen
    apply hbad
    · exact List.mem_filter.mpr ⟨hl1f, by simpa using htrim_pos l1 hl1ws⟩
    · exact List.mem_filter.mpr ⟨hl2f, by simpa using htrim_pos l2 hl2ws⟩
  · unfold csParseContent
    exact csProcessLines_isErr_of_badlen (hbad _ hl1 hl2)

/-- C6 witness: the statement instantiated at the two-line file
`[goodLine, shortLine]` with line lengths 80 and 9. -/
theorem C6_witness :
    ((∀ l ∈ ([goodLine, shortLine] : CNABFile), ∀ c ∈ l, c ≠ '\r' ∧ c ≠ '\n') ∧
      (∃ l1 ∈ csKeptLines [goodLine, shortLine],
        ∃ l2 ∈ csKeptLines [goodLine, shortLine], l1.length ≠ l2.length)) ∧
    (tsValidateCNABFile [goodLine, shortLine] = .error (.inconsistentLengths
        (dedupFirst ((([goodLine, shortLine] : CNABFile).filter
          (fun l => l.length > 0)).map List.length))) ∧
      csValidateFile [goodLine, shortLine] = .error (.inconsistentLengths
        (dedupFirst ((csKeptLines [goodLine, shortLine]).map List.length))) ∧
      isErr (tsParseCNABContent [goodLine, shortLine]) = true ∧
      isErr (csParseContent [goodLine, shortLine]) = true) :=
  ⟨⟨by decide, by decide⟩,
    C6_reject_on_mixed_lengths [goodLine, shortLine] (by decide) (by decide)⟩

/-- C7: whenever a parse succeeds, the batch is exactly one transaction
per kept non-trailer line (first character not `'9'`), in file order:
for the TypeScript parser the batch *is* the decode map over those
lines, and for the C# parser the decode of those lines matches the
batch element-wise; in particular the batch length equals the number of
non-blank non-trailer lines. -/
theorem C7_batch_shape (file : CNABFile) :
    (∀ b, tsParseCNABContent file = .ok b →
      b = ((file.filter (fun l => (trimWs l).length > 0)).filter
          (fun l => l.headD ' ' ≠ '9')).map tsDecodeLine ∧
      b.length = ((file.filter (fun l => (trimWs l).length > 0)).filter
          (fun l => l.headD ' ' ≠ '9')).length) ∧
    (∀ b, csParseContent file = .ok b →
      ((csKeptLines file).filter (fun l => l.headD ' ' ≠ '9')).map csDecodeLine
          = b.map some ∧
      b.length =
        ((csKeptLines file).filter (fun l => l.headD ' ' ≠ '9')).length) := by
  constructor
  · intro b h
    unfold tsParseCNABContent at h
    have heq := tsParseLines_ok_eq h
    exact ⟨heq, by rw [heq, List.length_map]⟩
  · intro b h
    unfold csParseContent at h
    have heq := csProcessLines_ok_eq h
    refine ⟨heq, ?_⟩
    have hlen := congrArg List.length heq
    simp only [List.length_map] at hlen
    omega

/-- C7 witness: the statement instantiated at the two-line file
`[goodLine, trailerLine]` (one detail record and a trailer), whose
parses succeed with a batch of one transaction. -/
theorem C7_witness :
    (tsParseCNABContent [goodLine, trailerLine] =
        .ok ([goodLine].map tsDecodeLine) ∧
      ([goodLine].map tsDecodeLine =
          ((([goodLine, trailerLine] : CNABFile).filter
            (fun l => (trimWs l).length > 0)).filter
            (fun l => l.headD ' ' ≠ '9')).map tsDecodeLine ∧
        ([goodLine].map tsDecodeLine).length =
          ((([goodLine, trailerLine] : CNABFile).filter
            (fun l => (trimWs l).length > 0)).filter
            (fun l => l.headD ' ' ≠ '9')).length)) ∧
    (csParseContent [goodLine, trailerLine] =
        .ok ([goodLine].filterMap csDecodeLine) ∧
      (((csKeptLines [goodLine, trailerLine]).filter
          (fun l => l.headD ' ' ≠ '9')).map csDecodeLine
            = ([goodLine].filterMap csDecodeLine).map some ∧
        ([goodLine].filterMap csDecodeLine).length =
          ((csKeptLines [goodLine, trailerLine]).filter
            (fun l => l.headD ' ' ≠ '9')).length)) :=
  ⟨⟨by decide, (C7_batch_shape [goodLine, trailerLine]).1 _ (by decide)⟩,
    ⟨by decide, (C7_batch_shape [goodLine, trailerLine]).2 _ (by decide)⟩⟩

/-- C8 counterexample: the claim says the record validator accepts a
card field mixing digits and `'*'` and that a masked card is never a
validation error.  The TypeScript `validateCNABDetailRecord`
(index.ts lines 139-143, regex `^\d{12}$`) rejects the otherwise-valid
record `c8tsline` because its card field `4753****3153` contains
asterisks; the C# validator accepts the analogous record. -/
theorem C8_counterexample :
    tsValidateCNABDetailRecord c8tsline 1 =
      some (.invalidCard 1 ("4753****3153").toList) ∧
    csValidateCNABDetailRecord c8csline 1 = none := by
  refine ⟨by decide, by decide⟩

/-- C8 amended: on records whose other fields pass all non-card checks,
the C# record validator accepts exactly the card fields made of digits
and asterisks (`csCardOk`) and rejects any other card with the
card error; the TypeScript record validator instead accepts only
all-digit card fields, so a masked card fails its card check. -/
theorem C8_card_mask (l l' : Line) (n n' : Nat)
    (hcs : csOtherChecksOK l) (hts : tsOtherChecksOK l') :
    ((csValidateCNABDetailRecord l n = none ↔ csCardOk l = true) ∧
      (csCardOk l = false →
        csValidateCNABDetailRecord l n =
          some (.invalidCard n (subLen l 30 12)))) ∧
    ((tsValidateCNABDetailRecord l' n' = none ↔
        isDigits (sub l' 30 42) 12 = true) ∧
      (isDigits (sub l' 30 42) 12 = false →
        tsValidateCNABDetailRecord l' n' =
          some (.invalidCard n' (sub l' 30 42)))) := by
  have h1 := csDetailFirstFail_card hcs
  have h2 := tsDetailFirstFail_card hts
  unfold csValidateCNABDetailRecord tsValidateCNABDetailRecord
  rw [h1, h2]
  by_cases hc : csCardOk l = true <;>
    by_cases ht : isDigits (sub l' 30 42) 12 = true <;>
      simp [hc, ht, CSDetailKind.withLine, TSDetailKind.withLine]

/-- C8 witness: the amended statement instantiated at the concrete
masked-card records `c8csline` (C# side) and `c8tsline` (TypeScript
side) with line number 1. -/
theorem C8_witness :
    (csOtherChecksOK c8csline ∧ tsOtherChecksOK c8tsline) ∧
    (((csValidateCNABDetailRecord c8csline 1 = none ↔
          csCardOk c8csline = true) ∧
        (csCardOk c8csline = false →
          csValidateCNABDetailRecord c8csline 1 =
            some (.invalidCard 1 (subLen c8csline 30 12)))) ∧
      ((tsValidateCNABDetailRecord c8tsline 1 = none ↔
          isDigits (sub c8tsline 30 42) 12 = true) ∧
        (isDigits (sub c8tsline 30 42) 12 = false →
          tsValidateCNABDetailRecord c8tsline 1 =
            some (.invalidCard 1 (sub c8tsline 30 42))))) :=
  ⟨⟨by unfold csOtherChecksOK; decide, by unfold tsOtherChecksOK; decide⟩,
    C8_card_mask c8csline c8tsline 1 1 (by unfold csOtherChecksOK; decide)
      (by unfold tsOtherChecksOK; decide)⟩

/-- C9: a type-9 (trailer) record is skipped wherever it occurs in the
file.  Inserting an 80-character CR-free line with first character
`'9'` anywhere leaves the TypeScript parse result unchanged, and leaves
the set of successful C# parse results unchanged (the C# error values
may renumber lines, but a batch is produced, and the same batch, with
the type-9 line exactly as without it; it yields no transaction and no
error, and later lines are still validated and decoded). -/
theorem C9_trailer_skipped_anywhere (pre post : CNABFile) (l9 : Line)
    (h80 : l9.length = 80) (h9 : l9.headD ' ' = '9')
    (hcr : ∀ c ∈ l9, c ≠ '\r' ∧ c ≠ '\n') :
    tsParseCNABContent (pre ++ l9 :: post) = tsParseCNABContent (pre ++ post) ∧
    ∀ b, csParseContent (pre ++ l9 :: post) = .ok b ↔
      csParseContent (pre ++ post) = .ok b := by
  have hne : l9 ≠ [] := by
    intro hnil; rw [hnil] at h80; simp at h80
  constructor
  · have hkeep : (trimWs l9).length > 0 :=
      trimWs_ne_nil_of_digit_head h9 hne (by decide)
    unfold tsParseCNABContent
    rw [List.filter_append, List.filter_append, List.filter_cons,
      if_pos (by simpa using hkeep)]
    exact tsParseLines_skip9 h80 h9 _ _
  · have hstrip : stripCRLF l9 = l9 := stripCRLF_eq_self hcr
    have hws : isNullOrWhiteSpace l9 = false := by
      rcases l9 with _ | ⟨c, rest⟩
      · exact absurd rfl hne
      · simp only [List.headD_cons] at h9
        subst h9
        simp [isNullOrWhiteSpace, isWs]
    have hkeq : csKeptLines (pre ++ l9 :: post) =
        csKeptLines pre ++ l9 :: csKeptLines post := by
      unfold csKeptLines
      rw [List.map_append, List.map_cons, List.filter_append,
        List.filter_cons, hstrip, if_pos (by simp [hws])]
    have hkeq2 : csKeptLines (pre ++ post) =
        csKeptLines pre ++ csKeptLines post := by
      unfold csKeptLines
      rw [List.map_append, List.filter_append]
    intro b
    unfold csParseContent
    rw [hkeq, hkeq2, csProcessLines_skip9 h80 h9 _ (csKeptLines pre)
      (csKeptLines post)]
    exact csProcessLines_ok_iff_base _ _ _ b

/-- C9 witness: the statement instantiated with a trailer line between
`goodLine` and `c2line`, and the C# equivalence instantiated at the
actual two-transaction batch. -/
theorem C9_witness :
    (trailerLine.length = 80 ∧ trailerLine.headD ' ' = '9' ∧
      (∀ c ∈ trailerLine, c ≠ '\r' ∧ c ≠ '\n')) ∧
    tsParseCNABContent ([goodLine] ++ trailerLine :: [c2line]) =
      tsParseCNABContent ([goodLine] ++ [c2line]) ∧
    (csParseContent ([goodLine] ++ trailerLine :: [c2line]) =
        .ok ([goodLine, c2line].filterMap csDecodeLine) ↔
      csParseContent ([goodLine] ++ [c2line]) =
        .ok ([goodLine, c2line].filterMap csDecodeLine)) :=
  ⟨⟨by decide, by decide, by decide⟩,
    (C9_trailer_skipped_anywhere [goodLine] [c2line] trailerLine
      (by decide) (by decide) (by decide)).1,
    (C9_trailer_skipped_anywhere [goodLine] [c2line] trailerLine
      (by decide) (by decide) (by decide)).2 _⟩

/-- C10: a line consisting entirely of whitespace — e.g. 80 spaces — is
dropped by both parsers before any length or type-code check:
inserting it anywhere leaves both parse results completely unchanged,
contributing neither a transaction nor an error. -/
theorem C10_blank_lines_dropped (pre post : CNABFile) (ws : Line)
    (hws : isNullOrWhiteSpace ws = true) :
    tsParseCNABContent (pre ++ ws :: post) = tsParseCNABContent (pre ++ post) ∧
    csParseContent (pre ++ ws :: post) = csParseContent (pre ++ post) := by
  constructor
  · unfold tsParseCNABContent
    rw [List.filter_append, List.filter_append, List.filter_cons,
      if_neg (by simp [(trimWs_eq_nil_iff ws).mpr hws])]
  · have hstrip : isNullOrWhiteSpace (stripCRLF ws) = true := by
      simp only [isNullOrWhiteSpace, List.all_eq_true] at hws ⊢
      intro c hc
      apply hws
      unfold stripCRLF at hc
      rw [List.mem_reverse] at hc
      exact List.mem_reverse.mp ((List.dropWhile_sublist _).subset hc)
    have hkeq : csKeptLines (pre ++ ws :: post) = csKeptLines (pre ++ post) := by
      unfold csKeptLines
      rw [List.map_append, List.map_append, List.map_cons,
        List.filter_append, List.filter_append, List.filter_cons,
        if_neg (by simp [hstrip])]
    unfold csParseContent
    rw [hkeq]

/-- C10 witness: the statement instantiated with an 80-space line
between `goodLine` and `c2line`. -/
theorem C10_witness :
    isNullOrWhiteSpace spacesLine = true ∧
    tsParseCNABContent ([goodLine] ++ spacesLine :: [c2line]) =
      tsParseCNABContent ([goodLine] ++ [c2line]) ∧
    csParseContent ([goodLine] ++ spacesLine :: [c2line]) =
      csParseContent ([goodLine] ++ [c2line]) :=
  ⟨by decide, C10_blank_lines_dropped [goodLine] [c2line] spacesLine (by decide)⟩
